import Mathlib

/-!
Shallow embedding of the LED-Ring / ESP-NOW controller firmware
(src/0407_version_color_timer_enable_typing_ESPtesting.ino).

Conventions of the embedding:
* A raw button level is a `Bool`, `true` = HIGH, `false` = LOW
  (the buttons are active-low with pull-ups).
* A packed 32-bit color is a `Nat`; `ringColor r g b` models
  `Adafruit_NeoPixel::Color(r, g, b) = (r << 16) | (g << 8) | b`
  with the `uint8_t` arguments reduced mod 256.
* The pixel buffer is a `List Nat` of length `NUM_LEDS`; each LED effect
  is modelled as the list of buffers it shows (one entry per
  `ring.show()` call), in order.  The real-time `delay` calls only pace
  the frames and carry no state, so they are not modelled.
* `millis()` values are supplied as inputs to each loop iteration;
  the stored `int startTime` and the `unsigned long` subtraction
  `millis() - startTime` are modelled mod 2^32 (`wrapSub`).
* One iteration of `loop()` is the function `loopStep`; the ESP-NOW
  receive callback is `onDataRecv`.
-/

namespace LEDRing

/-- Number of pixels on the ring, `#define NUM_LEDS 8`. -/
def NUM_LEDS : Nat := 8

/-- Identifier of this board, `#define MY_ID 1`. -/
def MY_ID : Nat := 1

/-- Session duration in milliseconds, `int duration = 150000`. -/
def duration : Nat := 150000

/-- Modulus of 32-bit unsigned arithmetic. -/
def M32 : Nat := 4294967296

/-- Wrapping 32-bit subtraction, as in `millis() - startTime` where the
operands are converted to `unsigned long`. -/
def wrapSub (a b : Nat) : Nat := (a % M32 + (M32 - b % M32)) % M32

/-- Packed RGB color, `ring.Color(r, g, b) = (r << 16) | (g << 8) | b`
with `uint8_t` arguments. -/
def ringColor (r g b : Nat) : Nat := (r % 256) * 65536 + (g % 256) * 256 + (b % 256)

/-- Red channel of a packed color, `(uint8_t)(color >> 16)`. -/
def redCh (c : Nat) : Nat := (c / 65536) % 256

/-- Green channel of a packed color, `(uint8_t)(color >> 8)`. -/
def greenCh (c : Nat) : Nat := (c / 256) % 256

/-- Blue channel of a packed color, `(uint8_t)color`. -/
def blueCh (c : Nat) : Nat := c % 256

/-- The fixed palette, `uint32_t colors[]` (Red, Green, Blue, Yellow, White). -/
def colors : List Nat :=
  [ringColor 255 0 0, ringColor 0 255 0, ringColor 0 0 255,
   ringColor 255 255 0, ringColor 255 255 255]

/-- Palette size, `int totalColors = sizeof(colors) / sizeof(colors[0])`. -/
def totalColors : Nat := colors.length

/-- The dimming helper `dimColor(color, brightness)`: extract the three
channels, scale each by `brightness / 255` with integer truncation, and
repack.  `brightness` is a `uint8_t`, so callers pass a value below 256. -/
def dimColor (color brightness : Nat) : Nat :=
  ringColor (redCh color * brightness / 255)
            (greenCh color * brightness / 255)
            (blueCh color * brightness / 255)

theorem redCh_lt (c : Nat) : redCh c < 256 := Nat.mod_lt _ (by decide)

theorem greenCh_lt (c : Nat) : greenCh c < 256 := Nat.mod_lt _ (by decide)

theorem blueCh_lt (c : Nat) : blueCh c < 256 := Nat.mod_lt _ (by decide)

theorem redCh_ringColor (r g b : Nat) (hr : r < 256) (hg : g < 256) (hb : b < 256) :
    redCh (ringColor r g b) = r := by
  unfold redCh ringColor
  omega

theorem greenCh_ringColor (r g b : Nat) (hr : r < 256) (hg : g < 256) (hb : b < 256) :
    greenCh (ringColor r g b) = g := by
  unfold greenCh ringColor
  omega

theorem blueCh_ringColor (r g b : Nat) (hr : r < 256) (hg : g < 256) (hb : b < 256) :
    blueCh (ringColor r g b) = b := by
  unfold blueCh ringColor
  omega

theorem scaled_channel_lt (x b : Nat) (hx : x < 256) (hb : b ≤ 255) :
    x * b / 255 < 256 := by
  have h : x * b ≤ 255 * 255 := Nat.mul_le_mul (by omega) hb
  omega

theorem scaled_channel_le (x b : Nat) (hb : b ≤ 255) : x * b / 255 ≤ x := by
  have h1 : x * b / 255 ≤ x * 255 / 255 :=
    Nat.div_le_div_right (Nat.mul_le_mul_left x hb)
  have h2 : x * 255 / 255 = x := Nat.mul_div_cancel x (by decide)
  omega

/-- C7: the dimming function sends every color to black at brightness 0,
is the channel-wise identity at brightness 255, scales every channel by
truncated integer multiplication `channel * brightness / 255`, and never
produces an output channel above the corresponding input channel. -/
theorem dimColor_spec (c b : Nat) (hb : b ≤ 255) :
    dimColor c 0 = ringColor 0 0 0 ∧
    redCh (dimColor c 255) = redCh c ∧
    greenCh (dimColor c 255) = greenCh c ∧
    blueCh (dimColor c 255) = blueCh c ∧
    redCh (dimColor c b) = redCh c * b / 255 ∧
    greenCh (dimColor c b) = greenCh c * b / 255 ∧
    blueCh (dimColor c b) = blueCh c * b / 255 ∧
    redCh (dimColor c b) ≤ redCh c ∧
    greenCh (dimColor c b) ≤ greenCh c ∧
    blueCh (dimColor c b) ≤ blueCh c := by
  have hr := redCh_lt c
  have hg := greenCh_lt c
  have hbl := blueCh_lt c
  have id255 : ∀ x : Nat, x * 255 / 255 = x := fun x => Nat.mul_div_cancel x (by decide)
  have h255 : dimColor c 255 = ringColor (redCh c) (greenCh c) (blueCh c) := by
    unfold dimColor
    rw [id255, id255, id255]
  have hdR : redCh (dimColor c b) = redCh c * b / 255 := by
    unfold dimColor
    exact redCh_ringColor _ _ _ (scaled_channel_lt _ _ hr hb)
      (scaled_channel_lt _ _ hg hb) (scaled_channel_lt _ _ hbl hb)
  have hdG : greenCh (dimColor c b) = greenCh c * b / 255 := by
    unfold dimColor
    exact greenCh_ringColor _ _ _ (scaled_channel_lt _ _ hr hb)
      (scaled_channel_lt _ _ hg hb) (scaled_channel_lt _ _ hbl hb)
  have hdB : blueCh (dimColor c b) = blueCh c * b / 255 := by
    unfold dimColor
    exact blueCh_ringColor _ _ _ (scaled_channel_lt _ _ hr hb)
      (scaled_channel_lt _ _ hg hb) (scaled_channel_lt _ _ hbl hb)
  refine ⟨?_, ?_, ?_, ?_, hdR, hdG, hdB, ?_, ?_, ?_⟩
  · simp [dimColor]
  · rw [h255, redCh_ringColor _ _ _ hr hg hbl]
  · rw [h255, greenCh_ringColor _ _ _ hr hg hbl]
  · rw [h255, blueCh_ringColor _ _ _ hr hg hbl]
  · rw [hdR]
    exact scaled_channel_le _ _ hb
  · rw [hdG]
    exact scaled_channel_le _ _ hb
  · rw [hdB]
    exact scaled_channel_le _ _ hb

/-- Witness for `dimColor_spec` at a concrete color and brightness. -/
theorem dimColor_spec_witness :
    dimColor (ringColor 255 0 0) 0 = ringColor 0 0 0 ∧
    redCh (dimColor (ringColor 255 0 0) 100) = 100 := by
  have h := dimColor_spec (ringColor 255 0 0) 100 (by decide)
  refine ⟨h.1, ?_⟩
  have h5 := h.2.2.2.2.1
  rw [h5]
  decide

/-- A pixel buffer: one packed color per LED. -/
abbrev Frame := List Nat

/-- Buffer with all pixels off, `ring.clear()`. -/
def clearBuf : Frame := List.replicate NUM_LEDS 0

/-- Buffer with all pixels set to one color, `ring.fill(color)`. -/
def fillBuf (color : Nat) : Frame := List.replicate NUM_LEDS color

/-- Set one pixel of a buffer, `ring.setPixelColor(i, color)`. -/
def setPixel (buf : Frame) (i : Nat) (color : Nat) : Frame := buf.set i color

/-- Frames shown by `rotatingEffectCW`: for `i = 0 .. NUM_LEDS-1`,
clear the buffer, light pixel `i`, show. -/
def rotatingEffectCW (color : Nat) : List Frame :=
  (List.range NUM_LEDS).map (fun i => setPixel clearBuf i color)

/-- Frames shown by `rotatingEffectCCW`: for `i = NUM_LEDS-1 .. 0`,
clear the buffer, light pixel `i`, show. -/
def rotatingEffectCCW (color : Nat) : List Frame :=
  (List.range NUM_LEDS).reverse.map (fun i => setPixel clearBuf i color)

/-- Frames shown by `slowBlinkingEffect`: fill, show, clear, show. -/
def slowBlinkingEffect (color : Nat) : List Frame := [fillBuf color, clearBuf]

/-- Frames shown by `fastBlinkingEffect`: fill, show, clear, show. -/
def fastBlinkingEffect (color : Nat) : List Frame := [fillBuf color, clearBuf]

/-- Frames shown by `alwaysBright`: fill, show. -/
def alwaysBright (color : Nat) : List Frame := [fillBuf color]

/-- Frames shown by `wipeFillEffect`: starting from a cleared buffer,
set pixels `0 .. i` cumulatively and show after each, then clear and show. -/
def wipeFillEffect (color : Nat) : List Frame :=
  ((List.range NUM_LEDS).map
    (fun i => (List.range (i + 1)).foldl (fun b j => setPixel b j color) clearBuf))
    ++ [clearBuf]

/-- Frames shown by `pulseForward`: head pixel `i` at full color, pixel
`i-1` dimmed to 100/255, pixel `i-2` dimmed to 40/255, rest off. -/
def pulseForward (color : Nat) : List Frame :=
  (List.range NUM_LEDS).map (fun i =>
    let b1 := setPixel clearBuf i color
    let b2 := if i > 0 then setPixel b1 (i - 1) (dimColor color 100) else b1
    if i > 1 then setPixel b2 (i - 2) (dimColor color 40) else b2)

/-- The `switch (motionCommand)` dispatch of the main execution block:
states 0-6 run their effect, anything else falls through with no frames. -/
def dispatch (mc : Nat) (color : Nat) : List Frame :=
  match mc with
  | 0 => rotatingEffectCW color
  | 1 => rotatingEffectCCW color
  | 2 => slowBlinkingEffect color
  | 3 => fastBlinkingEffect color
  | 4 => alwaysBright color
  | 5 => wipeFillEffect color
  | 6 => pulseForward color
  | _ => []

/-- An ESP-NOW wire record, `struct_message {senderID, command, state}`.
All three fields are `uint8_t` values. -/
structure Message where
  senderID : Nat
  command : Nat
  state : Nat
deriving DecidableEq, Repr

/-- Construction done by `sendCommand(cmd, state)` before broadcasting. -/
def sendCommand (cmd : Nat) (state : Nat := 0) : Message :=
  { senderID := MY_ID, command := cmd, state := state }

/-- The mutable globals of the sketch, plus the last shown pixel buffer. -/
structure ProgState where
  enabled : Bool
  lastEnableButtonState : Bool
  colorIndex : Nat
  motionCommand : Nat
  lastColorButtonState : Bool
  startTime : Nat
  ring : Frame
deriving DecidableEq, Repr

/-- The global state right after `setup()`: `enabled = false`, both last
button levels HIGH, `colorIndex = 0`, `motionCommand = 0`, `startTime`
zero-initialized, ring cleared by `ring.show()` after `begin`. -/
def initState : ProgState :=
  { enabled := false
    lastEnableButtonState := true
    colorIndex := 0
    motionCommand := 0
    lastColorButtonState := true
    startTime := 0
    ring := clearBuf }

/-- Environment inputs consumed by one iteration of `loop()`:
the two raw button levels read at the top, the enable-button level
re-sampled after the 50 ms debounce delay, at most one serial byte,
and the `millis()` samples at the two call sites. -/
structure LoopInput where
  colorButton : Bool
  enableButton : Bool
  enableButtonResample : Bool
  serial : Option Char
  tEnable : Nat
  tCheck : Nat
deriving DecidableEq, Repr

/-- The color-button edge test of `loop()`:
`colorButtonState == LOW && lastColorButtonState == HIGH`.
The color button is not re-sampled after the debounce delay. -/
def colorEdgeFired (s : ProgState) (inp : LoopInput) : Bool :=
  !inp.colorButton && s.lastColorButtonState

/-- The confirmed enable-button edge of `loop()`: HIGH-to-LOW transition
and still LOW when re-read after the 50 ms delay. -/
def confirmedEnableEdge (s : ProgState) (inp : LoopInput) : Bool :=
  (!inp.enableButton && s.lastEnableButtonState) && !inp.enableButtonResample

/-- Value of `motionCommand` after the serial-input block: a byte in
the ASCII range of the seven states overwrites it, anything else is ignored. -/
def motionAfterSerial (s : ProgState) (inp : LoopInput) : Nat :=
  match inp.serial with
  | some ch => if ch.toNat ≥ 48 ∧ ch.toNat ≤ 54 then ch.toNat - 48 else s.motionCommand
  | none => s.motionCommand

/-- Value of `colorIndex` after the color-button block: a press advances
the cursor by one modulo the palette size. -/
def colorIndexAfter (s : ProgState) (inp : LoopInput) : Nat :=
  if colorEdgeFired s inp then (s.colorIndex + 1) % totalColors else s.colorIndex

/-- Value of `enabled` after the enable-button block: a confirmed edge
sets it, otherwise it keeps its previous value. -/
def enabledAfterButton (s : ProgState) (inp : LoopInput) : Bool :=
  if confirmedEnableEdge s inp then true else s.enabled

/-- Value of `startTime` after the enable-button block: a confirmed edge
records `millis()` (stored through a 32-bit `int`). -/
def startTimeAfter (s : ProgState) (inp : LoopInput) : Nat :=
  if confirmedEnableEdge s inp then inp.tEnable % M32 else s.startTime

/-- Whether the timeout branch of the main execution block fires this
iteration: only reachable when the session is enabled at that point, and
then only if `millis() - startTime > duration`. -/
def timeoutFired (s : ProgState) (inp : LoopInput) : Bool :=
  enabledAfterButton s inp && decide (wrapSub inp.tCheck (startTimeAfter s inp) > duration)

/-- One iteration of `loop()`.  Returns the new global state, the list
of ESP-NOW messages broadcast during the iteration (in send order), and
the list of pixel frames shown (in show order). -/
def loopStep (s : ProgState) (inp : LoopInput) : ProgState × List Message × List Frame :=
  let currentColor := colors.getD (colorIndexAfter s inp) 0
  let frames1 : List Frame := if colorEdgeFired s inp then alwaysBright currentColor else []
  let sent1 : List Message := if confirmedEnableEdge s inp then [sendCommand 1] else []
  let motion1 := motionAfterSerial s inp
  let mainFrames : List Frame :=
    if enabledAfterButton s inp then dispatch motion1 currentColor
    else alwaysBright currentColor
  let sent2 : List Message := if timeoutFired s inp then [sendCommand 2] else []
  let frames := frames1 ++ mainFrames
  ({ enabled := enabledAfterButton s inp && !timeoutFired s inp
     lastEnableButtonState := inp.enableButton
     colorIndex := colorIndexAfter s inp
     motionCommand := motion1
     lastColorButtonState := inp.colorButton
     startTime := startTimeAfter s inp
     ring := frames.getLastD s.ring },
   sent1 ++ sent2,
   frames)

/-- The ESP-NOW receive callback `OnDataRecv`: a record with command 3
overwrites `motionCommand` with its state field, all else is ignored. -/
def onDataRecv (s : ProgState) (msg : Message) : ProgState :=
  if msg.command = 3 then { s with motionCommand := msg.state } else s

/-- An asynchronous event: one main-loop iteration or one inbound record. -/
inductive Event where
  | loop (inp : LoopInput)
  | recv (msg : Message)
deriving DecidableEq, Repr

/-- Apply one event to the global state. -/
def applyEvent (s : ProgState) (e : Event) : ProgState :=
  match e with
  | .loop inp => (loopStep s inp).1
  | .recv msg => onDataRecv s msg

/-- Run a sequence of events from a state. -/
def runEvents (s : ProgState) (es : List Event) : ProgState :=
  es.foldl applyEvent s

/-- Run a sequence of main-loop iterations from a state. -/
def runLoop (s : ProgState) (inps : List LoopInput) : ProgState :=
  inps.foldl (fun t i => (loopStep t i).1) s

/-- Number of color-button presses accepted along a run. -/
def countColorPresses (s : ProgState) : List LoopInput → Nat
  | [] => 0
  | i :: rest =>
      (if colorEdgeFired s i then 1 else 0) + countColorPresses ((loopStep s i).1) rest

/-- Indices of the pixels that are lit (nonzero color) in a buffer. -/
def litPixels (frame : Frame) : List Nat :=
  (List.range frame.length).filter (fun i => frame.getD i 0 != 0)

theorem loopStep_enabled (s : ProgState) (inp : LoopInput) :
    (loopStep s inp).1.enabled = (enabledAfterButton s inp && !timeoutFired s inp) := rfl

theorem loopStep_startTime (s : ProgState) (inp : LoopInput) :
    (loopStep s inp).1.startTime = startTimeAfter s inp := rfl

theorem loopStep_colorIndex (s : ProgState) (inp : LoopInput) :
    (loopStep s inp).1.colorIndex = colorIndexAfter s inp := rfl

theorem loopStep_sent (s : ProgState) (inp : LoopInput) :
    (loopStep s inp).2.1 =
      (if confirmedEnableEdge s inp then [sendCommand 1] else []) ++
      (if timeoutFired s inp then [sendCommand 2] else []) := rfl

theorem loopStep_frames (s : ProgState) (inp : LoopInput) :
    (loopStep s inp).2.2 =
      (if colorEdgeFired s inp then
        alwaysBright (colors.getD (colorIndexAfter s inp) 0) else []) ++
      (if enabledAfterButton s inp then
        dispatch (motionAfterSerial s inp) (colors.getD (colorIndexAfter s inp) 0)
       else alwaysBright (colors.getD (colorIndexAfter s inp) 0)) := rfl

theorem loopStep_ring (s : ProgState) (inp : LoopInput) :
    (loopStep s inp).1.ring = ((loopStep s inp).2.2).getLastD s.ring := rfl

/-- C8: states 0 and 1 dispatch to the two rotation effects; with any
non-black color, every rotation frame has exactly one lit pixel, and a
full pass lights indices 0 to NUM_LEDS-1 in strictly increasing order for
state 0 and in strictly decreasing order for state 1, visiting every index
exactly once with no repeats and no skips. -/
theorem rotation_pass_spec (color : Nat) (h : color ≠ 0) :
    dispatch 0 color = rotatingEffectCW color ∧
    dispatch 1 color = rotatingEffectCCW color ∧
    (rotatingEffectCW color).map litPixels = [[0], [1], [2], [3], [4], [5], [6], [7]] ∧
    (rotatingEffectCCW color).map litPixels = [[7], [6], [5], [4], [3], [2], [1], [0]] := by
  obtain ⟨c, rfl⟩ := Nat.exists_eq_succ_of_ne_zero h
  exact ⟨rfl, rfl, rfl, rfl⟩

/-- Witness for `rotation_pass_spec` at the red palette color. -/
theorem rotation_pass_spec_witness :
    (rotatingEffectCW (ringColor 255 0 0)).map litPixels
      = [[0], [1], [2], [3], [4], [5], [6], [7]] ∧
    (rotatingEffectCCW (ringColor 255 0 0)).map litPixels
      = [[7], [6], [5], [4], [3], [2], [1], [0]] :=
  ⟨(rotation_pass_spec (ringColor 255 0 0) (by decide)).2.2.1,
   (rotation_pass_spec (ringColor 255 0 0) (by decide)).2.2.2⟩

/-- C3: an inbound record with command 3 overwrites `motionCommand` with
the state field of the record and changes nothing else; a record with
command 1 or 2 leaves the whole program state unchanged. -/
theorem recv_command_spec :
    (∀ (s : ProgState) (msg : Message), msg.command = 3 →
        onDataRecv s msg = { s with motionCommand := msg.state }) ∧
    (∀ (s : ProgState) (msg : Message), msg.command = 1 ∨ msg.command = 2 →
        onDataRecv s msg = s) := by
  constructor
  · intro s msg h
    simp [onDataRecv, h]
  · intro s msg h
    rcases h with h | h <;> simp [onDataRecv, h]

/-- Witness for `recv_command_spec` at concrete records. -/
theorem recv_command_spec_witness :
    onDataRecv initState ⟨7, 3, 5⟩ = { initState with motionCommand := 5 } ∧
    onDataRecv initState ⟨7, 1, 5⟩ = initState ∧
    onDataRecv initState ⟨7, 2, 5⟩ = initState :=
  ⟨recv_command_spec.1 initState ⟨7, 3, 5⟩ rfl,
   recv_command_spec.2 initState ⟨7, 1, 5⟩ (Or.inl rfl),
   recv_command_spec.2 initState ⟨7, 2, 5⟩ (Or.inr rfl)⟩

theorem step_enable_only_on_edge (s : ProgState) (inp : LoopInput)
    (hdis : s.enabled = false) (hen : (loopStep s inp).1.enabled = true) :
    confirmedEnableEdge s inp = true := by
  rw [loopStep_enabled] at hen
  unfold enabledAfterButton at hen
  cases hc : confirmedEnableEdge s inp
  · rw [hc] at hen
    simp [hdis] at hen
  · rfl

theorem step_disable_iff_timeout (s : ProgState) (inp : LoopInput)
    (hen : s.enabled = true) :
    ((loopStep s inp).1.enabled = false ↔
      duration < wrapSub inp.tCheck ((loopStep s inp).1.startTime)) := by
  rw [loopStep_enabled, loopStep_startTime]
  unfold timeoutFired enabledAfterButton
  cases hc : confirmedEnableEdge s inp <;> simp [hc, hen]

theorem step_disable_at_least (s : ProgState) (inp : LoopInput)
    (hen : s.enabled = true) (hdis : (loopStep s inp).1.enabled = false) :
    150000 ≤ wrapSub inp.tCheck ((loopStep s inp).1.startTime) := by
  have h := (step_disable_iff_timeout s inp hen).mp hdis
  unfold duration at h
  omega

theorem step_enabled_change_cases (s : ProgState) (inp : LoopInput)
    (hch : (loopStep s inp).1.enabled ≠ s.enabled) :
    (s.enabled = false ∧ confirmedEnableEdge s inp = true) ∨
    (s.enabled = true ∧ duration < wrapSub inp.tCheck ((loopStep s inp).1.startTime)) := by
  rw [loopStep_enabled] at hch
  rw [loopStep_startTime]
  unfold timeoutFired enabledAfterButton at hch
  cases hs : s.enabled <;> cases hc : confirmedEnableEdge s inp <;>
    simp [hs, hc, startTimeAfter] at hch ⊢
  all_goals exact hch

theorem recv_preserves_enabled (s : ProgState) (msg : Message) :
    (onDataRecv s msg).enabled = s.enabled := by
  unfold onDataRecv
  split <;> rfl

/-- C1: the session starts Disabled, moves to Enabled only on a confirmed
enable-button edge (HIGH-to-LOW transition still LOW when re-sampled after
the 50 ms settle delay), moves back to Disabled exactly when the wrapped
elapsed time since the recorded start timestamp exceeds 150000 ms (hence
at least 150000 ms have elapsed, never fewer), and no other event, in
particular no inbound record, changes the enabled flag. -/
theorem session_lifecycle_spec :
    initState.enabled = false ∧
    (∀ (s : ProgState) (inp : LoopInput), s.enabled = false →
        (loopStep s inp).1.enabled = true → confirmedEnableEdge s inp = true) ∧
    (∀ (s : ProgState) (inp : LoopInput), s.enabled = true →
        ((loopStep s inp).1.enabled = false ↔
          duration < wrapSub inp.tCheck ((loopStep s inp).1.startTime))) ∧
    (∀ (s : ProgState) (inp : LoopInput), s.enabled = true →
        (loopStep s inp).1.enabled = false →
        150000 ≤ wrapSub inp.tCheck ((loopStep s inp).1.startTime)) ∧
    (∀ (s : ProgState) (inp : LoopInput), (loopStep s inp).1.enabled ≠ s.enabled →
        (s.enabled = false ∧ confirmedEnableEdge s inp = true) ∨
        (s.enabled = true ∧ duration < wrapSub inp.tCheck ((loopStep s inp).1.startTime))) ∧
    (∀ (s : ProgState) (msg : Message), (onDataRecv s msg).enabled = s.enabled) :=
  ⟨rfl, step_enable_only_on_edge, step_disable_iff_timeout,
   step_disable_at_least, step_enabled_change_cases, recv_preserves_enabled⟩

/-- Witness for `session_lifecycle_spec`: a concrete confirmed edge out of
the initial state, a concrete timeout-driven disable, and a concrete
inbound record. -/
theorem session_lifecycle_spec_witness :
    confirmedEnableEdge initState ⟨true, false, false, none, 0, 0⟩ = true ∧
    150000 ≤ wrapSub 200000
      ((loopStep ⟨true, true, 0, 4, true, 0, clearBuf⟩
          ⟨true, true, true, none, 0, 200000⟩).1.startTime) ∧
    (onDataRecv initState ⟨7, 3, 5⟩).enabled = initState.enabled := by
  refine ⟨?_, ?_, ?_⟩
  · exact session_lifecycle_spec.2.1 initState ⟨true, false, false, none, 0, 0⟩ rfl (by decide)
  · exact session_lifecycle_spec.2.2.2.1 ⟨true, true, 0, 4, true, 0, clearBuf⟩
      ⟨true, true, true, none, 0, 200000⟩ rfl (by decide)
  · exact session_lifecycle_spec.2.2.2.2.2 initState ⟨7, 3, 5⟩

/-- C2 counterexample: a confirmed enable-button edge while the session
is already Enabled leaves the session state unchanged (`enabled` stays
`true`) yet broadcasts one Enable message (command 1), refuting the part
of the claim that no Enable or Disable message is emitted by a step that
leaves the session state unchanged. -/
theorem resend_enable_counterexample :
    (loopStep ⟨true, true, 0, 4, true, 0, clearBuf⟩
        ⟨true, false, false, none, 1000, 1000⟩).1.enabled = true ∧
    (ProgState.enabled ⟨true, true, 0, 4, true, 0, clearBuf⟩) = true ∧
    (loopStep ⟨true, true, 0, 4, true, 0, clearBuf⟩
        ⟨true, false, false, none, 1000, 1000⟩).2.1.countP
      (fun m => m.command == 1) = 1 := by
  decide

theorem step_sent_of_fresh_enable (s : ProgState) (inp : LoopInput)
    (hdis : s.enabled = false) (hen : (loopStep s inp).1.enabled = true) :
    (loopStep s inp).2.1 = [sendCommand 1] := by
  have hc := step_enable_only_on_edge s inp hdis hen
  have ht : timeoutFired s inp = false := by
    rw [loopStep_enabled] at hen
    cases ht : timeoutFired s inp
    · rfl
    · rw [ht] at hen
      simp at hen
  rw [loopStep_sent, hc, ht]
  rfl

theorem step_count_enable (s : ProgState) (inp : LoopInput) :
    (loopStep s inp).2.1.countP (fun m => m.command == 1)
      = if confirmedEnableEdge s inp then 1 else 0 := by
  rw [loopStep_sent]
  cases hc : confirmedEnableEdge s inp <;> cases ht : timeoutFired s inp <;>
    simp [hc, ht, sendCommand, MY_ID]

theorem step_count_disable (s : ProgState) (inp : LoopInput) :
    (loopStep s inp).2.1.countP (fun m => m.command == 2)
      = if timeoutFired s inp then 1 else 0 := by
  rw [loopStep_sent]
  cases hc : confirmedEnableEdge s inp <;> cases ht : timeoutFired s inp <;>
    simp [hc, ht, sendCommand, MY_ID]

theorem step_count_disable_of_timeout (s : ProgState) (inp : LoopInput)
    (hen : s.enabled = true) (hdis : (loopStep s inp).1.enabled = false) :
    (loopStep s inp).2.1.countP (fun m => m.command == 2) = 1 := by
  have ht : timeoutFired s inp = true := by
    rw [loopStep_enabled] at hdis
    cases ht : timeoutFired s inp
    · rw [ht] at hdis
      unfold enabledAfterButton at hdis
      cases hc : confirmedEnableEdge s inp <;> simp [hc, hen] at hdis
    · rfl
  rw [step_count_disable, ht]
  rfl

theorem step_no_event_no_message (s : ProgState) (inp : LoopInput)
    (hc : confirmedEnableEdge s inp = false) (ht : timeoutFired s inp = false) :
    (loopStep s inp).2.1 = [] := by
  rw [loopStep_sent, hc, ht]
  rfl

/-- C2 amended: a step that moves the session from Disabled to Enabled
broadcasts exactly the one Enable message, and a step that moves it from
Enabled to Disabled broadcasts exactly one Disable message; however, one
Enable message is broadcast on every confirmed enable-button edge, even
when the session is already Enabled and the state does not change, and a
Disable message exactly when the timeout branch fires.  A step with
neither a confirmed edge nor a timeout broadcasts nothing. -/
theorem message_emission_spec :
    (∀ (s : ProgState) (inp : LoopInput), s.enabled = false →
        (loopStep s inp).1.enabled = true → (loopStep s inp).2.1 = [sendCommand 1]) ∧
    (∀ (s : ProgState) (inp : LoopInput), s.enabled = true →
        (loopStep s inp).1.enabled = false →
        (loopStep s inp).2.1.countP (fun m => m.command == 2) = 1) ∧
    (∀ (s : ProgState) (inp : LoopInput),
        (loopStep s inp).2.1.countP (fun m => m.command == 1)
          = if confirmedEnableEdge s inp then 1 else 0) ∧
    (∀ (s : ProgState) (inp : LoopInput),
        (loopStep s inp).2.1.countP (fun m => m.command == 2)
          = if timeoutFired s inp then 1 else 0) ∧
    (∀ (s : ProgState) (inp : LoopInput), confirmedEnableEdge s inp = false →
        timeoutFired s inp = false → (loopStep s inp).2.1 = []) :=
  ⟨step_sent_of_fresh_enable, step_count_disable_of_timeout,
   step_count_enable, step_count_disable, step_no_event_no_message⟩

/-- Witness for `message_emission_spec`: a concrete fresh enable and a
concrete timeout-driven disable. -/
theorem message_emission_spec_witness :
    (loopStep initState ⟨true, false, false, none, 0, 0⟩).2.1 = [sendCommand 1] ∧
    (loopStep ⟨true, true, 0, 4, true, 0, clearBuf⟩
        ⟨true, true, true, none, 0, 200000⟩).2.1.countP
      (fun m => m.command == 2) = 1 := by
  constructor
  · exact message_emission_spec.1 initState ⟨true, false, false, none, 0, 0⟩ rfl (by decide)
  · exact message_emission_spec.2.1 ⟨true, true, 0, 4, true, 0, clearBuf⟩
      ⟨true, true, true, none, 0, 200000⟩ rfl (by decide)

/-- C4: in any loop iteration in which the session is Disabled after the
button blocks, every frame shown is the static all-pixels-on buffer in
the current palette color, the display is rendered at least once, and the
final buffer holds that static pattern, whatever value `motionCommand`
has. -/
theorem disabled_render_spec (s : ProgState) (inp : LoopInput)
    (hdis : s.enabled = false) (hedge : confirmedEnableEdge s inp = false) :
    (loopStep s inp).2.2 ≠ [] ∧
    (∀ f ∈ (loopStep s inp).2.2,
        f = fillBuf (colors.getD ((loopStep s inp).1.colorIndex) 0)) ∧
    (loopStep s inp).1.ring
      = fillBuf (colors.getD ((loopStep s inp).1.colorIndex) 0) := by
  have hen : enabledAfterButton s inp = false := by
    unfold enabledAfterButton
    rw [hedge, hdis]
    rfl
  rw [loopStep_ring, loopStep_frames, loopStep_colorIndex]
  cases hce : colorEdgeFired s inp <;> simp [hce, hen, alwaysBright]

/-- Witness for `disabled_render_spec`: a disabled board with palette
cursor 2 (Blue) and Display State 3 shows the static Blue pattern. -/
theorem disabled_render_spec_witness :
    (loopStep ⟨false, true, 2, 3, true, 0, clearBuf⟩
        ⟨true, true, true, none, 0, 0⟩).1.ring = fillBuf (colors.getD 2 0) :=
  (disabled_render_spec ⟨false, true, 2, 3, true, 0, clearBuf⟩
    ⟨true, true, true, none, 0, 0⟩ rfl (by decide)).2.2

/-- C5: a `motionCommand` outside 0-6 hits the default branch of the
dispatch: no animation effect runs and no frame is shown, and in a full
enabled iteration without a color press the pixel buffer is left exactly
as it was.  The dispatch is a total function, so no crash is possible in
the model. -/
theorem out_of_range_noop_spec :
    (∀ mc color, 6 < mc → dispatch mc color = []) ∧
    (∀ (s : ProgState) (inp : LoopInput), enabledAfterButton s inp = true →
        6 < motionAfterSerial s inp → colorEdgeFired s inp = false →
        (loopStep s inp).2.2 = [] ∧ (loopStep s inp).1.ring = s.ring) := by
  have hdisp : ∀ mc color, 6 < mc → dispatch mc color = [] := by
    intro mc color h
    rcases mc with _ | _ | _ | _ | _ | _ | _ | n
    all_goals first | omega | rfl
  refine ⟨hdisp, ?_⟩
  intro s inp hen hmc hce
  have hf : (loopStep s inp).2.2 = [] := by
    rw [loopStep_frames, hce, hen]
    simp [hdisp _ _ hmc]
  refine ⟨hf, ?_⟩
  rw [loopStep_ring, hf]
  rfl

/-- Witness for `out_of_range_noop_spec`: Display State 9 while enabled
shows nothing and keeps the buffer. -/
theorem out_of_range_noop_spec_witness :
    (loopStep ⟨true, true, 0, 9, true, 0, clearBuf⟩
        ⟨true, true, true, none, 0, 0⟩).2.2 = [] ∧
    (loopStep ⟨true, true, 0, 9, true, 0, clearBuf⟩
        ⟨true, true, true, none, 0, 0⟩).1.ring = clearBuf :=
  out_of_range_noop_spec.2 ⟨true, true, 0, 9, true, 0, clearBuf⟩
    ⟨true, true, true, none, 0, 0⟩ (by decide) (by decide) (by decide)

theorem runLoop_colorIndex_general (inps : List LoopInput) (s : ProgState)
    (h : s.colorIndex < totalColors) :
    (runLoop s inps).colorIndex
      = (s.colorIndex + countColorPresses s inps) % totalColors := by
  induction inps generalizing s with
  | nil =>
      simp [runLoop, countColorPresses, Nat.mod_eq_of_lt h]
  | cons i rest ih =>
      have hrun : runLoop s (i :: rest) = runLoop (loopStep s i).1 rest := rfl
      have hcnt : countColorPresses s (i :: rest)
          = (if colorEdgeFired s i then 1 else 0)
            + countColorPresses (loopStep s i).1 rest := rfl
      cases hce : colorEdgeFired s i
      · have hci : (loopStep s i).1.colorIndex = s.colorIndex := by
          rw [loopStep_colorIndex]
          unfold colorIndexAfter
          rw [hce]
          rfl
        rw [hrun, ih _ (by rw [hci]; exact h), hci, hcnt, hce]
        simp
      · have hci : (loopStep s i).1.colorIndex = (s.colorIndex + 1) % totalColors := by
          rw [loopStep_colorIndex]
          unfold colorIndexAfter
          rw [hce]
          rfl
        rw [hrun, ih _ (by rw [hci]; exact Nat.mod_lt _ (by decide)), hci, hcnt, hce]
        rw [Nat.mod_add_mod]
        simp [Nat.add_assoc, Nat.add_comm 1]

/-- C6: the palette has five colors; starting from the initial state, the
palette cursor after any run of loop iterations equals the number of
accepted color-button presses modulo the palette size, and each single
accepted press moves the cursor to `(cursor + 1) % totalColors`. -/
theorem color_cursor_spec :
    totalColors = 5 ∧
    (∀ inps, (runLoop initState inps).colorIndex
        = countColorPresses initState inps % totalColors) ∧
    (∀ (s : ProgState) (inp : LoopInput), colorEdgeFired s inp = true →
        (loopStep s inp).1.colorIndex = (s.colorIndex + 1) % totalColors) := by
  refine ⟨rfl, ?_, ?_⟩
  · intro inps
    have h := runLoop_colorIndex_general inps initState (by decide)
    rw [show initState.colorIndex = 0 from rfl, Nat.zero_add] at h
    exact h
  · intro s inp h
    rw [loopStep_colorIndex]
    unfold colorIndexAfter
    rw [h]
    rfl

/-- Witness for `color_cursor_spec`: one concrete accepted press from the
initial state moves the cursor from 0 to 1. -/
theorem color_cursor_spec_witness :
    (loopStep initState ⟨false, true, true, none, 0, 0⟩).1.colorIndex
      = (initState.colorIndex + 1) % totalColors :=
  color_cursor_spec.2.2 initState ⟨false, true, true, none, 0, 0⟩ (by decide)

/-- C9: a confirmed enable-button edge while the session is already
Enabled overwrites the recorded start timestamp with the current
`millis()` sample, restarting the 150000 ms countdown, and the enabled
flag stays true provided the restarted countdown has not already expired
at the timeout check of the same iteration (the check runs at most one
render burst after the edge, far below 150000 ms). -/
theorem enable_repress_extends (s : ProgState) (inp : LoopInput)
    (hen : s.enabled = true) (hedge : confirmedEnableEdge s inp = true)
    (hfresh : wrapSub inp.tCheck (inp.tEnable % M32) ≤ duration) :
    (loopStep s inp).1.startTime = inp.tEnable % M32 ∧
    (loopStep s inp).1.enabled = true := by
  have hst : startTimeAfter s inp = inp.tEnable % M32 := by
    unfold startTimeAfter
    rw [hedge]
    rfl
  refine ⟨by rw [loopStep_startTime, hst], ?_⟩
  rw [loopStep_enabled]
  unfold timeoutFired enabledAfterButton
  rw [hedge, hst]
  simp
  omega

/-- Witness for `enable_repress_extends`: a concrete re-press at 1000 ms
into an enabled session restarts the countdown from 1000 ms. -/
theorem enable_repress_extends_witness :
    (loopStep ⟨true, true, 0, 4, true, 0, clearBuf⟩
        ⟨true, false, false, none, 1000, 1050⟩).1.startTime = 1000 % M32 ∧
    (loopStep ⟨true, true, 0, 4, true, 0, clearBuf⟩
        ⟨true, false, false, none, 1000, 1050⟩).1.enabled = true :=
  enable_repress_extends ⟨true, true, 0, 4, true, 0, clearBuf⟩
    ⟨true, false, false, none, 1000, 1050⟩ rfl (by decide) (by decide)

theorem applyEvent_colorIndex_lt (s : ProgState) (e : Event)
    (h : s.colorIndex < totalColors) : (applyEvent s e).colorIndex < totalColors := by
  cases e with
  | loop inp =>
      show colorIndexAfter s inp < totalColors
      unfold colorIndexAfter
      cases hce : colorEdgeFired s inp
      · simpa using h
      · simp
        exact Nat.mod_lt _ (by decide)
  | recv msg =>
      show (onDataRecv s msg).colorIndex < totalColors
      unfold onDataRecv
      split <;> exact h

/-- C10: in every state reachable from the initial state through any
interleaving of loop iterations and inbound records, the palette cursor
satisfies `colorIndex < totalColors`, and `totalColors` is the length of
the fixed five-element palette, so every access `colors[colorIndex]` is
in bounds. -/
theorem palette_cursor_invariant (es : List Event) :
    (runEvents initState es).colorIndex < totalColors ∧
    totalColors = colors.length ∧
    colors.length = 5 := by
  refine ⟨?_, rfl, rfl⟩
  have gen : ∀ (l : List Event) (s : ProgState), s.colorIndex < totalColors →
      (runEvents s l).colorIndex < totalColors := by
    intro l
    induction l with
    | nil => intro s h; exact h
    | cons e rest ih =>
        intro s h
        exact ih _ (applyEvent_colorIndex_lt s e h)
  exact gen es initState (by decide)

end LEDRing
